import Mathlib

/-!
Verification development for the statistics-collection subsystem of the
repository: the `StatsCollectBuilder` configuration parser and the
`STCAgent` facade (`statscollectlibs/collector/STCHelpers.py` and
`statscollectlibs/stcagentlibs/STCAgent.py`), shallowly embedded as pure
Lean functions.  The `_Collector` module (descriptor catalog and per-locality
collector internals) is not among the sources; those parts are modelled from
the specification and are marked `Modelled from the spec:` in their doc
comments.  Logging is modelled as a list of emitted informational messages,
and the contact with the external `stc-agent` process is modelled by a
per-host availability predicate (for discovery) and a `committed` snapshot
(for `configure`).
-/

namespace Wult

/-- Errors raised by the subsystem.  The Python code raises `Error` (or
`ErrorNotFound`) with distinguishing messages; the constructors mirror the
distinct raise sites. -/
inductive StErr where
  /-- `unknown statistic name ...` raised by `_check_stname`. -/
  | unknownStat (stname : String)
  /-- `cannot simultaneously include and exclude ...` raised by `parse_stnames`. -/
  | conflictingSelection (stnames : List String)
  /-- `bad intervals entry ...` / `bad interval value ...` raised by `parse_intervals`. -/
  | malformedEntry (entry : String)
  /-- `the following statistics cannot be collected ...` raised after discovery. -/
  | statsUnavailable (stnames : List String)
  /-- `statistics ... is not available` (`ErrorNotFound`) raised by `_get_stinfo`. -/
  | notAvailable (stname : String)
  /-- `unknown property ... for the ... statistics` raised by `set_prop`. -/
  | unknownProperty (stname prop : String)
  deriving Repr, DecidableEq

/-- The value of a Python `float`: either a (rational-idealized) finite value,
a signed infinity, or a NaN. -/
inductive PyFloat where
  | finite (q : ℚ)
  | infty (neg : Bool)
  | nan
  deriving Repr, DecidableEq

/-- Characters stripped by Python `str.strip()` with no arguments (the common
ASCII whitespace). -/
def pyWhitespace : List Char := [' ', '\t', '\n', '\r', '\x0b', '\x0c']

/-- `l` with every leading and trailing character from `cs` removed, as in
Python `str.strip(chars)`. -/
def stripChars (cs : List Char) (l : List Char) : List Char :=
  ((l.dropWhile (fun c => cs.contains c)).reverse.dropWhile (fun c => cs.contains c)).reverse

/-- Split a character list at every occurrence of `sep`, keeping empty pieces,
as in Python `str.split(sep)` for a one-character separator (so the empty
input yields one empty piece). -/
def splitChar (sep : Char) : List Char → List (List Char)
  | [] => [[]]
  | c :: rest =>
    match splitChar sep rest with
    | [] => [[]]
    | h :: t => if c = sep then [] :: h :: t else (c :: h) :: t

/-- `Trivial.split_csv_line(line, sep)` from pepclibs (external collaborator,
embedded from its documented behavior): strip spaces and separators from both
ends, split on the separator, and strip whitespace from each piece. -/
def split_csv_line (line : String) (sep : Char) : List String :=
  (splitChar sep (stripChars [' ', sep] line.toList)).map
    (fun w => String.mk (stripChars pyWhitespace w))

/-- Tail of a Python digit-part after its first digit: digits with single
underscores allowed only between digits. -/
def digitTail : List Char → Bool
  | [] => true
  | ['_'] => false
  | '_' :: c :: rest => c.isDigit && digitTail rest
  | c :: rest => c.isDigit && digitTail rest

/-- A Python `digitpart`: `digit (["_"] digit)*`. -/
def isDigitPart (l : List Char) : Bool :=
  match l with
  | [] => false
  | c :: rest => c.isDigit && digitTail rest

/-- Numeric value of a digit-part, ignoring underscores. -/
def digitsVal (l : List Char) : Nat :=
  l.foldl (fun acc c => if c.isDigit then acc * 10 + (c.toNat - '0'.toNat) else acc) 0

/-- Number of actual digits in a digit-part (underscores do not count). -/
def numDigits (l : List Char) : Nat :=
  (l.filter Char.isDigit).length

/-- Split a character list at the first character satisfying `p`, if any. -/
def splitFirstP (p : Char → Bool) (l : List Char) : Option (List Char × List Char) :=
  match l with
  | [] => none
  | c :: rest =>
    if p c then some ([], rest)
    else (splitFirstP p rest).map (fun pr => (c :: pr.1, pr.2))

/-- Optional sign prefix: returns (is-negative, remainder). -/
def parseSign (l : List Char) : Bool × List Char :=
  match l with
  | '+' :: rest => (false, rest)
  | '-' :: rest => (true, rest)
  | _ => (false, l)

/-- Case-insensitive comparison of a character list against a lowercase word. -/
def lowerEq (l : List Char) (s : String) : Bool :=
  (l.map Char.toLower) == s.toList

/-- The mantissa of a Python float literal: `digitpart`, `digitpart "." [digitpart]`,
or `"." digitpart`; value as an exact rational. -/
def parseMantissa (l : List Char) : Option ℚ :=
  match splitFirstP (fun c => c = '.') l with
  | none => if isDigitPart l then some ((digitsVal l : ℚ)) else none
  | some (ip, fp) =>
    if ip = [] then
      if isDigitPart fp then some ((digitsVal fp : ℚ) / (10 : ℚ) ^ numDigits fp) else none
    else if fp = [] then
      if isDigitPart ip then some ((digitsVal ip : ℚ)) else none
    else
      if isDigitPart ip && isDigitPart fp then
        some ((digitsVal ip : ℚ) + (digitsVal fp : ℚ) / (10 : ℚ) ^ numDigits fp)
      else none

/-- Python `float(s)` on a string: `none` when the conversion raises
`ValueError`.  Finite values are exact rationals (binary rounding and the
overflow-to-infinity of huge literals are idealized away; no claim depends on
them). -/
def pyFloatParse (s : String) : Option PyFloat :=
  let l := stripChars pyWhitespace s.toList
  let sl := parseSign l
  let neg := sl.1
  let l := sl.2
  if lowerEq l "inf" || lowerEq l "infinity" then some (.infty neg)
  else if lowerEq l "nan" then some .nan
  else
    match splitFirstP (fun c => c = 'e' || c = 'E') l with
    | none => (parseMantissa l).map (fun q => .finite (if neg then -q else q))
    | some (m, e) =>
      let se := parseSign e
      if isDigitPart se.2 then
        (parseMantissa m).map (fun q =>
          let ev : ℤ := (digitsVal se.2 : ℤ)
          let q := q * (10 : ℚ) ^ (if se.1 then -ev else ev)
          .finite (if neg then -q else q))
      else none

/-- `Trivial.is_float(s)` from pepclibs: whether `float(s)` succeeds. -/
def is_float (s : String) : Bool :=
  (pyFloatParse s).isSome

/-- `float(s)` for a string already known to satisfy `is_float`. -/
def pyFloat (s : String) : PyFloat :=
  (pyFloatParse s).getD .nan

/-- Python `set.add`: append the element unless already present. -/
def addSet (l : List String) (x : String) : List String :=
  if l.contains x then l else l ++ [x]

/-- Python set intersection `l1 & l2` (membership view; order is the first
operand's). -/
def pyInter (l1 l2 : List String) : List String :=
  l1.filter (fun n => l2.contains n)

/-- Python set difference `l1 - l2`. -/
def pyDiff (l1 l2 : List String) : List String :=
  l1.filter (fun n => !l2.contains n)

/-- Python dict assignment `m[k] = v`: overwrite in place, else append. -/
def dictSet (m : List (String × α)) (k : String) (v : α) : List (String × α) :=
  if m.any (fun p => p.1 == k) then
    m.map (fun p => if p.1 == k then (k, v) else p)
  else m ++ [(k, v)]

/-- One statistic descriptor (the per-name dictionary inside a collector's
`stinfo`): locality flag, default collection interval, tool path, property
map, and the current enabled flag. -/
structure StInfo where
  inband : Bool
  interval : ℚ
  toolpath : Option String
  props : List (String × String)
  enabled : Bool
  deriving Repr, DecidableEq

/-- Modelled from the spec: the `DEFAULT_STINFO` statistic catalog lives in
`statscollectlibs/stcagentlibs/_Collector.py`, which is absent from the
sources.  Per the spec it is the fixed registry of known statistic names,
each tagged in-band (`turbostat`, `ipmi-inband`, `sysinfo`) or out-of-band
(`ipmi`, `acpower` - the external power meter), with a default interval and a
property schema (`acpower` carries the `devnode` property used by
`STCHelpers`). -/
def DEFAULT_STINFO : List (String × StInfo) :=
  [("sysinfo", { inband := true, interval := 0, toolpath := none, props := [],
                 enabled := true }),
   ("turbostat", { inband := true, interval := 5, toolpath := none, props := [],
                   enabled := true }),
   ("ipmi-inband", { inband := true, interval := 5, toolpath := none, props := [],
                     enabled := true }),
   ("ipmi", { inband := false, interval := 5, toolpath := none, props := [],
              enabled := true }),
   ("acpower", { inband := false, interval := 1, toolpath := none,
                 props := [("devnode", "default")], enabled := true })]

/-- All catalog statistic names (the meaning of the special `"all"` argument). -/
def stnamesAll : List String :=
  DEFAULT_STINFO.map Prod.fst

/-- Whether `stname` is a known statistic name (`stname in DEFAULT_STINFO`). -/
def knownStat (stname : String) : Bool :=
  (DEFAULT_STINFO.lookup stname).isSome

/-- `DEFAULT_STINFO[stname]["inband"]` for a known name (`false` otherwise;
only reached after `_check_stname`). -/
def inbandStat (stname : String) : Bool :=
  ((DEFAULT_STINFO.lookup stname).map (fun si => si.inband)).getD false

/-- `_check_stname` from `STCAgent.py`: verify that `stname` is a known
statistic name. -/
def _check_stname (stname : String) : Except StErr Unit :=
  if knownStat stname then .ok () else .error (.unknownStat stname)

/-- `_check_stnames` from `STCAgent.py`: verify every name in the list, in
order, failing on the first unknown one. -/
def _check_stnames : List String → Except StErr Unit
  | [] => .ok ()
  | n :: rest =>
    match _check_stname n with
    | .ok _ => _check_stnames rest
    | .error e => .error e

/-- The loop body of `_separate_inb_vs_oob`: check one name against the
catalog and add it to the in-band or the out-of-band set. -/
def separate_step (acc : List String × List String) (stname : String) :
    Except StErr (List String × List String) :=
  match _check_stname stname with
  | .error e => .error e
  | .ok _ =>
    if inbandStat stname then .ok (addSet acc.1 stname, acc.2)
    else .ok (acc.1, addSet acc.2 stname)

/-- `_separate_inb_vs_oob` from `STCAgent.py`: split names into the in-band
and the out-of-band set, checking each name against the catalog. -/
def _separate_inb_vs_oob (stnames : List String) : Except StErr (List String × List String) :=
  stnames.foldlM separate_step ([], [])

/-- The `StatsCollectBuilder` state from `STCHelpers.py` (`__init__`
defaults are `mkBuilder`).  The Python attributes are named `include` and
`exclude`; `include` is a Lean keyword, hence `incl`/`excl` here. -/
structure StatsCollectBuilder where
  discover : Bool
  incl : List String
  excl : List String
  intervals : List (String × PyFloat)
  deriving Repr, DecidableEq

/-- `StatsCollectBuilder.__init__`: discovery off, empty selection sets,
empty interval map. -/
def mkBuilder : StatsCollectBuilder :=
  { discover := false, incl := [], excl := [], intervals := [] }

/-- Python `stname.startswith("!")`. -/
def startsWithBang (s : String) : Bool :=
  match s.toList with
  | '!' :: _ => true
  | _ => false

/-- Python `stname[1:]`. -/
def dropFirst (s : String) : String :=
  String.mk (s.toList.drop 1)

/-- The token loop of `StatsCollectBuilder.parse_stnames`: `"all"` turns
discovery on, a `"!"` prefix adds to the exclude set, anything else to the
include set. -/
def parse_stnames_tokens (b : StatsCollectBuilder) (stnames : String) : StatsCollectBuilder :=
  (split_csv_line stnames ',').foldl (fun b stname =>
    if stname = "all" then { b with discover := true }
    else if startsWithBang stname then { b with excl := addSet b.excl (dropFirst stname) }
    else { b with incl := addSet b.incl stname }) b

/-- `StatsCollectBuilder.parse_stnames` from `STCHelpers.py`: run the token
loop, fail if the include and exclude sets intersect, then validate both sets
against the catalog (`StatsCollect.check_stnames`, which raises the
unknown-statistic error exactly as `_check_stnames`). -/
def parse_stnames (b : StatsCollectBuilder) (stnames : String) : Except StErr StatsCollectBuilder :=
  let b := parse_stnames_tokens b stnames
  let bogus := pyInter b.incl b.excl
  if bogus ≠ [] then .error (.conflictingSelection bogus)
  else
    match _check_stnames b.incl with
    | .error e => .error e
    | .ok _ =>
      match _check_stnames b.excl with
      | .error e => .error e
      | .ok _ => .ok b

/-- The loop body of `StatsCollectBuilder.parse_intervals`: split one entry
on `":"` (exactly two fields, else the malformed-entry error), validate the
name against the catalog, require the interval to satisfy
`Trivial.is_float` (note: only float-ness is checked, not positivity), and
store `float(interval)` into the intervals map. -/
def parse_intervals_entry (b : StatsCollectBuilder) (entry : String) : Except StErr StatsCollectBuilder :=
  match split_csv_line entry ':' with
  | [stname, interval] =>
    match _check_stname stname with
    | .error e => .error e
    | .ok _ =>
      if is_float interval then
        .ok { b with intervals := dictSet b.intervals stname (pyFloat interval) }
      else .error (.malformedEntry entry)
  | _ => .error (.malformedEntry entry)

/-- `StatsCollectBuilder.parse_intervals` from `STCHelpers.py`: run the
entry loop over the comma-separated entries. -/
def parse_intervals (b : StatsCollectBuilder) (ivspec : String) : Except StErr StatsCollectBuilder :=
  (split_csv_line ivspec ',').foldlM parse_intervals_entry b

/-- One per-locality collector: its descriptor dictionary (`stinfo`) and the
configuration last committed to its `stc-agent` process (`none` before the
first `configure()`).  The agent-process handle and output directories are
modelled away (filesystem and process I/O). -/
structure Collector where
  stinfo : List (String × StInfo)
  committed : Option (List (String × StInfo))
  deriving Repr, DecidableEq

/-- Modelled from the spec: `_Collector.InBandCollector` (absent from the
sources) instantiates its descriptors from the catalog and, per the spec
invariant, owns exactly the descriptors whose locality matches its own
(in-band). -/
def mkInBandCollector : Collector :=
  { stinfo := DEFAULT_STINFO.filter (fun p => p.2.inband), committed := none }

/-- Modelled from the spec: `_Collector.OutOfBandCollector` (absent from the
sources) owns exactly the out-of-band descriptors of the catalog. -/
def mkOutOfBandCollector : Collector :=
  { stinfo := DEFAULT_STINFO.filter (fun p => !p.2.inband), committed := none }

/-- `coll.stinfo[stname]["enabled"] = v`: update one descriptor's enabled
flag in place (a dictionary write; the key set is unchanged). -/
def Collector.setEnabledFlag (c : Collector) (stname : String) (v : Bool) : Collector :=
  { c with stinfo := c.stinfo.map (fun p =>
      if p.1 == stname then (p.1, { p.2 with enabled := v }) else p) }

/-- Modelled from the spec: a collector's `get_enabled_stats` (absent from
the sources) returns the names of its descriptors whose enabled flag is set. -/
def Collector.get_enabled_stats (c : Collector) : List String :=
  (c.stinfo.filter (fun p => p.2.enabled)).map Prod.fst

/-- Modelled from the spec: a collector's `discover` (absent from the
sources) probes which of the currently-enabled statistics are actually
collectible on its host; the probe outcome is the `avail` predicate. -/
def Collector.discover (c : Collector) (avail : String → Bool) : List String :=
  (c.stinfo.filter (fun p => p.2.enabled && avail p.1)).map Prod.fst

/-- Modelled from the spec: a collector's `configure` (absent from the
sources) commits the current in-memory descriptor state to the live agent
process, recorded here as the `committed` snapshot. -/
def Collector.configure (c : Collector) : Collector :=
  { c with committed := some c.stinfo }

/-- `c.stinfo[stname]["interval"] = q`. -/
def Collector.setIntervalOf (c : Collector) (stname : String) (q : ℚ) : Collector :=
  { c with stinfo := c.stinfo.map (fun p =>
      if p.1 == stname then (p.1, { p.2 with interval := q }) else p) }

/-- Modelled from the spec: a collector's `set_intervals` (absent from the
sources) validates each interval as a positive number, stores it, and
returns a filtered copy containing only the statistics that remain
enabled. -/
def Collector.set_intervals (c : Collector) (ivs : List (String × PyFloat)) :
    Except StErr (Collector × List (String × PyFloat)) :=
  match ivs.foldlM (fun c (p : String × PyFloat) =>
      (match p.2 with
       | .finite q => if 0 < q then .ok (c.setIntervalOf p.1 q) else .error (.malformedEntry p.1)
       | _ => .error (.malformedEntry p.1) : Except StErr Collector)) c with
  | .error e => .error e
  | .ok c2 => .ok (c2, ivs.filter (fun p => c2.get_enabled_stats.contains p.1))

/-- `c.stinfo[stname]["props"][prop] = v`. -/
def Collector.setPropOf (c : Collector) (stname prop v : String) : Collector :=
  { c with stinfo := c.stinfo.map (fun p =>
      if p.1 == stname then (p.1, { p.2 with props := dictSet p.2.props prop v }) else p) }

/-- The `STCAgent` facade state: the SUT process-manager bits the class uses
(`pman.is_remote`, `pman.hostname`), the in-band collector (always present),
the optional out-of-band collector, the info-logging flag, the informational
messages emitted so far, and whether `close()` ran. -/
structure STCAgent where
  remote : Bool
  hostname : String
  inbcoll : Collector
  oobcoll : Option Collector
  infoLogging : Bool
  logs : List String
  closed : Bool
  deriving Repr, DecidableEq

/-- `STCAgent.__init__` from `STCAgent.py`: always create the in-band
collector; create the out-of-band collector only when the SUT is remote
(out-of-band collectors by definition run on a host different to the SUT).
The output-directory absolute-path checks concern filesystem paths and are
out of the claims' scope. -/
def mkSTCAgent (remote : Bool) (hostname : String) : STCAgent :=
  { remote, hostname,
    inbcoll := mkInBandCollector,
    oobcoll := if remote then some mkOutOfBandCollector else none,
    infoLogging := false, logs := [], closed := false }

/-- `STCAgent.set_disabled_stats`: check all names, split in-band vs
out-of-band, clear the enabled flag of the named in-band descriptors, and of
the named out-of-band descriptors only when the out-of-band collector
exists. -/
def STCAgent.set_disabled_stats (a : STCAgent) (stnames : List String) : Except StErr STCAgent :=
  match _check_stnames stnames with
  | .error e => .error e
  | .ok _ =>
    match _separate_inb_vs_oob stnames with
    | .error e => .error e
    | .ok (inb, oob) =>
      let inbcoll := inb.foldl (fun c n => c.setEnabledFlag n false) a.inbcoll
      let oobcoll := match a.oobcoll with
        | some c => some (oob.foldl (fun c n => c.setEnabledFlag n false) c)
        | none => none
      .ok { a with inbcoll := inbcoll, oobcoll := oobcoll }

/-- `STCAgent.set_enabled_stats`: check all names, split them, then set the
enabled flag of every in-band descriptor to membership in the in-band
portion (enabling the named ones and disabling all others), and likewise for
the out-of-band descriptors when that collector exists. -/
def STCAgent.set_enabled_stats (a : STCAgent) (stnames : List String) : Except StErr STCAgent :=
  match _check_stnames stnames with
  | .error e => .error e
  | .ok _ =>
    match _separate_inb_vs_oob stnames with
    | .error e => .error e
    | .ok (inb, oob) =>
      let inbcoll := { a.inbcoll with stinfo := a.inbcoll.stinfo.map (fun p =>
        (p.1, { p.2 with enabled := inb.contains p.1 })) }
      let oobcoll := a.oobcoll.map (fun c => { c with stinfo := c.stinfo.map (fun p =>
        (p.1, { p.2 with enabled := oob.contains p.1 })) })
      .ok { a with inbcoll := inbcoll, oobcoll := oobcoll }

/-- `STCAgent.get_enabled_stats`: the union of the enabled sets of the
present collectors (list concatenation here; the two key sets are disjoint
by locality). -/
def STCAgent.get_enabled_stats (a : STCAgent) : List String :=
  a.inbcoll.get_enabled_stats ++
    (match a.oobcoll with
     | some c => c.get_enabled_stats
     | none => [])

/-- `STCAgent._handle_conflicting_stats`: when the out-of-band collector
exists and both `ipmi-inband` (in-band) and `ipmi` (out-of-band) are
enabled, disable `ipmi-inband` in favor of the less intrusive `ipmi` and log
an informational note. -/
def STCAgent._handle_conflicting_stats (a : STCAgent) : STCAgent :=
  match a.oobcoll with
  | none => a
  | some oc =>
    if (((a.inbcoll.stinfo.lookup "ipmi-inband").map (fun si => si.enabled)).getD false
        && ((oc.stinfo.lookup "ipmi").map (fun si => si.enabled)).getD false) then
      { a with inbcoll := a.inbcoll.setEnabledFlag "ipmi-inband" false,
               logs := a.logs ++ ["Disabling ipmi-inband statistics in favor of ipmi"] }
    else a

/-- `STCAgent.configure`: resolve conflicting statistics, then configure the
in-band collector and, if present, the out-of-band collector. -/
def STCAgent.configure (a : STCAgent) : STCAgent :=
  let a := a._handle_conflicting_stats
  let a := { a with inbcoll := a.inbcoll.configure }
  match a.oobcoll with
  | some oc => { a with oobcoll := some oc.configure }
  | none => a

/-- `STCAgent.discover`: the union of the discovery results of the present
collectors (each parameterized by its host's availability predicate). -/
def STCAgent.discover (a : STCAgent) (availInb availOob : String → Bool) : List String :=
  a.inbcoll.discover availInb ++
    (match a.oobcoll with
     | some c => c.discover availOob
     | none => [])

/-- `STCAgent._get_stinfo`: the descriptor for `stname` from the in-band
collector if it owns it, else the out-of-band collector if present, else the
`ErrorNotFound` "statistics ... is not available" error.  (For a known name
the out-of-band dictionary access cannot miss, by the locality invariant.) -/
def STCAgent._get_stinfo (a : STCAgent) (stname : String) : Except StErr StInfo :=
  match a.inbcoll.stinfo.lookup stname with
  | some si => .ok si
  | none =>
    match a.oobcoll with
    | some oc =>
      match oc.stinfo.lookup stname with
      | some si => .ok si
      | none => .error (.notAvailable stname)
    | none => .error (.notAvailable stname)

/-- `STCAgent.set_prop`: check the name, fetch its descriptor via
`_get_stinfo`, fail with the unknown-property error when `prop` is not in
the descriptor's schema, and otherwise store the value in the owning
collector's descriptor. -/
def STCAgent.set_prop (a : STCAgent) (stname prop value : String) : Except StErr STCAgent :=
  match _check_stname stname with
  | .error e => .error e
  | .ok _ =>
    match a._get_stinfo stname with
    | .error e => .error e
    | .ok si =>
      if (si.props.lookup prop).isSome then
        if (a.inbcoll.stinfo.lookup stname).isSome then
          .ok { a with inbcoll := a.inbcoll.setPropOf stname prop value }
        else
          .ok { a with oobcoll := a.oobcoll.map (fun c => c.setPropOf stname prop value) }
      else .error (.unknownProperty stname prop)

/-- `STCAgent.set_intervals`: check the names, split them by locality,
delegate the in-band portion to the in-band collector and the out-of-band
portion to the out-of-band collector only when it exists (otherwise that
portion is dropped), returning the merged filtered maps. -/
def STCAgent.set_intervals (a : STCAgent) (ivs : List (String × PyFloat)) :
    Except StErr (STCAgent × List (String × PyFloat)) :=
  match _check_stnames (ivs.map Prod.fst) with
  | .error e => .error e
  | .ok _ =>
    match _separate_inb_vs_oob (ivs.map Prod.fst) with
    | .error e => .error e
    | .ok (inbNames, oobNames) =>
      let inbIvs := ivs.filter (fun p => inbNames.contains p.1)
      let oobIvs := ivs.filter (fun p => oobNames.contains p.1)
      match a.inbcoll.set_intervals inbIvs with
      | .error e => .error e
      | .ok (inbcoll, res) =>
        match a.oobcoll with
        | some oc =>
          match oc.set_intervals oobIvs with
          | .error e => .error e
          | .ok (oc2, res2) =>
            .ok ({ a with inbcoll := inbcoll, oobcoll := some oc2 }, res ++ res2)
        | none => .ok ({ a with inbcoll := inbcoll }, res)

/-- `StatsCollect.set_info_logging`. -/
def STCAgent.set_info_logging (a : STCAgent) (v : Bool) : STCAgent :=
  { a with infoLogging := v }

/-- `STCAgent.close`: release the collectors and drop the host-connection
reference (modelled as a flag). -/
def STCAgent.closeAgent (a : STCAgent) : STCAgent :=
  { a with closed := true }

/-- The normalized configuration assembled by `create_and_configure_stcoll`
(the `stconf` dictionary). -/
structure Stconf where
  incl : List String
  excl : List String
  discover : Bool
  intervals : List (String × PyFloat)
  deriving Repr, DecidableEq

/-- Modelled from the spec: the `StatsCollect` facade class (its module is
absent from the sources) accepts the special `"all"` argument to
`set_enabled_stats`/`set_disabled_stats`, meaning every catalog statistic;
the flows below pass `stnamesAll` at the `"all"` call sites and otherwise
delegate to the `STCAgent`-equivalent methods above. -/
def apply_stconf (availInb availOob : String → Bool) (stcoll : STCAgent) (stconf : Stconf) :
    Except StErr STCAgent :=
  match stcoll.set_intervals stconf.intervals with
  | .error e => .error e
  | .ok (stcoll, _) =>
    if stconf.discover then
      match stcoll.set_enabled_stats stnamesAll with
      | .error e => .error e
      | .ok stcoll =>
        match stcoll.set_disabled_stats stconf.excl with
        | .error e => .error e
        | .ok stcoll =>
          let discovered := stcoll.discover availInb availOob
          let notFound := pyDiff stconf.incl discovered
          if notFound ≠ [] then .error (.statsUnavailable notFound)
          else
            match stcoll.set_disabled_stats stnamesAll with
            | .error e => .error e
            | .ok stcoll =>
              match stcoll.set_enabled_stats discovered with
              | .error e => .error e
              | .ok stcoll => .ok stcoll.configure
    else
      match stcoll.set_disabled_stats stnamesAll with
      | .error e => .error e
      | .ok stcoll =>
        match stcoll.set_enabled_stats stconf.incl with
        | .error e => .error e
        | .ok stcoll => .ok stcoll.configure

/-- The parsing prefix of `create_and_configure_stcoll`: build a fresh
builder, parse the statistic names, parse the intervals when that string is
non-empty, and assemble the `stconf` dictionary. -/
def buildStconf (stnames intervals : String) : Except StErr Stconf :=
  match parse_stnames mkBuilder stnames with
  | .error e => .error e
  | .ok b =>
    match (if intervals ≠ "" then parse_intervals b intervals else .ok b) with
    | .error e => .error e
    | .ok b => .ok { incl := b.incl, excl := b.excl, discover := b.discover,
                     intervals := b.intervals }

/-- The pre-discovery enable phase of `create_and_configure_stcoll`: in
discovery mode enable everything and disable the exclude set; in explicit
mode disable everything and enable exactly the include set. -/
def initialEnablePhase (stcoll : STCAgent) (stconf : Stconf) : Except StErr STCAgent :=
  if stconf.discover then
    match stcoll.set_enabled_stats stnamesAll with
    | .error e => .error e
    | .ok s => s.set_disabled_stats stconf.excl
  else
    match stcoll.set_disabled_stats stnamesAll with
    | .error e => .error e
    | .ok s => s.set_enabled_stats stconf.incl

/-- The `acpower` device-node phase of `create_and_configure_stcoll`: when
`acpower` is enabled, point its `devnode` property at the SUT name (the
host name for a remote SUT, `"default"` locally), suppressing any error
(`contextlib.suppress(Error)`). -/
def acpowerPhase (stcoll : STCAgent) : STCAgent :=
  if stcoll.get_enabled_stats.contains "acpower" then
    let devnode := if stcoll.remote then stcoll.hostname else "default"
    match stcoll.set_prop "acpower" "devnode" devnode with
    | .ok s => s
    | .error _ => stcoll
  else stcoll

/-- The discovery phase of `create_and_configure_stcoll` (source lines
187-199): run discovery, fail when a required statistic was not discovered,
then disable everything, enable the discovered set, enable everything
(`set_enabled_stats("all")`, as written in the source), and disable the
exclude set. -/
def discoverPhase (availInb availOob : String → Bool) (stcoll : STCAgent) (stconf : Stconf) :
    Except StErr STCAgent :=
  if stconf.discover then
    let discovered := stcoll.discover availInb availOob
    let notFound := pyDiff stconf.incl discovered
    if notFound ≠ [] then .error (.statsUnavailable notFound)
    else
      match stcoll.set_disabled_stats stnamesAll with
      | .error e => .error e
      | .ok s =>
        match s.set_enabled_stats discovered with
        | .error e => .error e
        | .ok s =>
          match s.set_enabled_stats stnamesAll with
          | .error e => .error e
          | .ok s => s.set_disabled_stats stconf.excl
  else .ok stcoll

/-- `create_and_configure_stcoll` up to and including the `configure()`
call: parse, create the facade, turn on info logging, run the pre-discovery
enable phase, the `acpower` phase, the discovery phase, and configure.  (The
`stc-agent` binary path lookup between the phases is deployment plumbing,
out of this spec's scope, and touches no descriptor state.) -/
def configureStage (stnames intervals : String) (remote : Bool) (hostname : String)
    (availInb availOob : String → Bool) : Except StErr STCAgent :=
  match buildStconf stnames intervals with
  | .error e => .error e
  | .ok stconf =>
    let stcoll := (mkSTCAgent remote hostname).set_info_logging true
    match initialEnablePhase stcoll stconf with
    | .error e => .error e
    | .ok stcoll =>
      let stcoll := acpowerPhase stcoll
      match discoverPhase availInb availOob stcoll stconf with
      | .error e => .error e
      | .ok stcoll => .ok stcoll.configure

/-- The tail of `create_and_configure_stcoll` (source lines 203-208): when
nothing is enabled, log the informational "No statistics will be collected"
message, close the facade and return `None`; otherwise return the facade.
The pair carries both the returned value and the facade's final state. -/
def finishStage (stcoll : STCAgent) : Option STCAgent × STCAgent :=
  if stcoll.get_enabled_stats = [] then
    (none, ({ stcoll with logs := stcoll.logs ++ ["No statistics will be collected"] }).closeAgent)
  else (some stcoll, stcoll)

/-- `create_and_configure_stcoll` from `STCHelpers.py`, end to end: `None`
for an empty or `"none"` selection, otherwise parse, build, configure and
apply the empty-result policy. -/
def create_and_configure_stcoll (stnames intervals : String) (remote : Bool) (hostname : String)
    (availInb availOob : String → Bool) : Except StErr (Option STCAgent) :=
  if stnames = "" ∨ stnames = "none" then .ok none
  else
    match configureStage stnames intervals remote hostname availInb availOob with
    | .error e => .error e
    | .ok stcoll => .ok (finishStage stcoll).1

deriving instance DecidableEq for Except

/-- The out-of-band statistic names of the catalog. -/
def oobStnames : List String :=
  (DEFAULT_STINFO.filter (fun p => !p.2.inband)).map Prod.fst

/-- The in-band statistic names of the catalog. -/
def inbStnames : List String :=
  (DEFAULT_STINFO.filter (fun p => p.2.inband)).map Prod.fst

/-- Well-formedness of a facade state: each present collector owns exactly
the descriptors of its locality, keyed as in the catalog (the spec's
locality invariant; established by the constructor and preserved by every
operation, which never changes a key set). -/
def WFagent (a : STCAgent) : Bool :=
  (a.inbcoll.stinfo.map Prod.fst == inbStnames)
  && (match a.oobcoll with
      | some oc => oc.stinfo.map Prod.fst == oobStnames
      | none => true)

/-- Whether the collector owning statistic `n` exists in facade `a` (the
in-band collector always does). -/
def statPresent (a : STCAgent) (n : String) : Bool :=
  if inbandStat n then true else a.oobcoll.isSome

/-- Spec-side characterization for the intervals map: whether one entry is
well-shaped (two colon-separated fields, known name, float value). -/
def entryOk (entry : String) : Bool :=
  match split_csv_line entry ':' with
  | [stname, interval] => knownStat stname && is_float interval
  | _ => false

/-- Whether an `Except` computation succeeded (no exception escaped). -/
def exIsOk {α : Type} : Except StErr α → Bool
  | .ok _ => true
  | .error _ => false

/-- One step of the spec-side last-occurrence-wins characterization: keep
the previous answer unless this entry names statistic `n`. -/
def lastIntervalStep (n : String) (acc : Option PyFloat) (entry : String) : Option PyFloat :=
  match split_csv_line entry ':' with
  | [stname, interval] => if stname = n then some (pyFloat interval) else acc
  | _ => acc

/-- Spec-side characterization: the value of the last entry of `entries`
that names statistic `n`, if any (the last-occurrence-wins reading of the
claim). -/
def lastParsedInterval (entries : List String) (n : String) : Option PyFloat :=
  entries.foldl (lastIntervalStep n) none

/-- The facade state of the discovery-mode scenario (`stnames = "all"`,
local SUT, only `turbostat` collectible) at the exact point where
`create_and_configure_stcoll` calls `discover()`. -/
def scenarioPreDiscover : Except StErr STCAgent :=
  match buildStconf "all" "" with
  | .error e => .error e
  | .ok stconf =>
    (initialEnablePhase ((mkSTCAgent false "host").set_info_logging true) stconf).map acpowerPhase

/-- The configured facade of the nothing-to-collect scenario (`stnames =
"acpower"` against a local SUT: `acpower` is out-of-band and the out-of-band
collector is absent, so nothing ends up enabled). -/
def demoC9Agent : STCAgent :=
  match configureStage "acpower" "" false "h" (fun _ => true) (fun _ => true) with
  | .ok a => a
  | .error _ => mkSTCAgent false "h"

/-- The builder after parsing a duplicate-name intervals spec. -/
def demoC3Builder : StatsCollectBuilder :=
  match parse_intervals mkBuilder "turbostat:2,turbostat:3" with
  | .ok b => b
  | .error _ => mkBuilder

/-- The builder after parsing a mixed include/exclude selection. -/
def demoC5Builder : StatsCollectBuilder :=
  match parse_stnames mkBuilder "!ipmi,acpower" with
  | .ok b => b
  | .error _ => mkBuilder

/-- A remote-SUT facade after enabling exactly `turbostat` and `ipmi`. -/
def demoC6Agent : STCAgent :=
  match (mkSTCAgent true "h").set_enabled_stats ["turbostat", "ipmi"] with
  | .ok a => a
  | .error _ => mkSTCAgent true "h"

theorem mem_addSet (l : List String) (x n : String) :
    n ∈ addSet l x ↔ n ∈ l ∨ n = x := by
  unfold addSet
  by_cases hc : l.contains x = true
  · rw [if_pos hc]
    have hx : x ∈ l := by
      have := List.elem_iff.mp hc
      exact this
    constructor
    · exact fun h => Or.inl h
    · rintro (h | rfl)
      · exact h
      · exact hx
  · rw [if_neg hc]
    simp [or_comm]

theorem lookup_map_update (n k : String) (f : StInfo → StInfo) (l : List (String × StInfo)) :
    (l.map (fun p => if p.1 == n then (p.1, f p.2) else p)).lookup k
      = if k = n then (l.lookup k).map f else l.lookup k := by
  induction l with
  | nil => simp
  | cons p t ih =>
    obtain ⟨k0, v⟩ := p
    simp only [beq_iff_eq] at ih
    by_cases h0 : k0 = n
    · subst h0
      by_cases hk : k = k0
      · subst hk
        simp [List.lookup_cons, ih]
      · have hb : (k == k0) = false := beq_eq_false_iff_ne.mpr hk
        simp [List.lookup_cons, hb, ih, hk]
    · have hb0 : (k0 == n) = false := beq_eq_false_iff_ne.mpr h0
      by_cases hk : k = k0
      · subst hk
        simp [List.lookup_cons, hb0, h0]
      · have hb : (k == k0) = false := beq_eq_false_iff_ne.mpr hk
        simp [List.lookup_cons, hb0, hb, ih, hk, h0]

theorem lookup_eq_none_of_not_mem_keys (k : String) (l : List (String × StInfo))
    (h : k ∉ l.map Prod.fst) : l.lookup k = none := by
  induction l with
  | nil => simp
  | cons p t ih =>
    simp only [List.map_cons, List.mem_cons, not_or] at h
    have hb : (k == p.1) = false := beq_eq_false_iff_ne.mpr h.1
    obtain ⟨k0, v⟩ := p
    simp only [List.lookup_cons]
    simp only at hb
    rw [hb]
    exact ih h.2

theorem check_stnames_ok (S : List String) (h : ∀ n ∈ S, knownStat n = true) :
    _check_stnames S = .ok () := by
  induction S with
  | nil => rfl
  | cons m t ih =>
    simp only [_check_stnames, _check_stname]
    rw [if_pos (h m (List.mem_cons_self m t))]
    exact ih (fun n hn => h n (List.mem_cons_of_mem m hn))

theorem check_stnames_error (S : List String) (n : String)
    (h : S.find? (fun m => !knownStat m) = some n) :
    _check_stnames S = .error (.unknownStat n) := by
  induction S with
  | nil => simp [List.find?] at h
  | cons m t ih =>
    simp only [List.find?] at h
    by_cases hm : knownStat m = true
    · rw [hm] at h
      simp only [Bool.not_true] at h
      simp only [_check_stnames, _check_stname, hm, if_true]
      exact ih h
    · simp only [Bool.not_eq_true] at hm
      rw [hm] at h
      simp only [Bool.not_false] at h
      injection h with h
      subst h
      simp [_check_stnames, _check_stname, hm]

theorem lookup_append {β : Type} (m l2 : List (String × β)) (k : String) :
    (m ++ l2).lookup k = (m.lookup k).or (l2.lookup k) := by
  induction m with
  | nil => simp
  | cons p t ih =>
    obtain ⟨k0, v⟩ := p
    by_cases hk : k = k0
    · subst hk
      simp [List.lookup_cons]
    · have hb : (k == k0) = false := beq_eq_false_iff_ne.mpr hk
      simp [List.lookup_cons, hb, ih]

theorem lookup_none_of_any_false {β : Type} (m : List (String × β)) (k : String)
    (h : m.any (fun p => p.1 == k) = false) : m.lookup k = none := by
  induction m with
  | nil => simp
  | cons p t ih =>
    obtain ⟨k0, v⟩ := p
    simp only [List.any_cons, Bool.or_eq_false_iff] at h
    have hb : (k == k0) = false :=
      beq_eq_false_iff_ne.mpr (Ne.symm (beq_eq_false_iff_ne.mp h.1))
    simp [List.lookup_cons, hb, ih h.2]

theorem lookup_map_replace_self {β : Type} (m : List (String × β)) (k : String) (v : β)
    (hany : m.any (fun p => p.1 == k) = true) :
    (m.map (fun p => if p.1 == k then (k, v) else p)).lookup k = some v := by
  induction m with
  | nil => simp at hany
  | cons p t ih =>
    obtain ⟨k0, w⟩ := p
    simp only [beq_iff_eq] at ih
    by_cases h0 : k0 = k
    · subst h0
      simp [List.lookup_cons]
    · have hb2 : (k == k0) = false := beq_eq_false_iff_ne.mpr (Ne.symm h0)
      simp only [List.any_cons, Bool.or_eq_true_iff] at hany
      rcases hany with hh | hany
      · simp only [beq_iff_eq] at hh
        exact absurd hh h0
      · simp [List.lookup_cons, hb2, h0, ih hany]

theorem lookup_map_replace_ne {β : Type} (m : List (String × β)) (k k2 : String) (v : β)
    (h : k2 ≠ k) :
    (m.map (fun p => if p.1 == k then (k, v) else p)).lookup k2 = m.lookup k2 := by
  induction m with
  | nil => simp
  | cons p t ih =>
    obtain ⟨k0, w⟩ := p
    simp only [beq_iff_eq] at ih
    have hb2k : (k2 == k) = false := beq_eq_false_iff_ne.mpr h
    by_cases h0 : k0 = k
    · subst h0
      simp [List.lookup_cons, hb2k, ih, h]
    · by_cases hk2 : k2 = k0
      · subst hk2
        simp [List.lookup_cons, h0]
      · have hb3 : (k2 == k0) = false := beq_eq_false_iff_ne.mpr hk2
        simp [List.lookup_cons, hb3, h0, ih, hk2]

theorem lookup_dictSet_self {β : Type} (m : List (String × β)) (k : String) (v : β) :
    (dictSet m k v).lookup k = some v := by
  unfold dictSet
  by_cases hany : m.any (fun p => p.1 == k) = true
  · rw [if_pos hany]
    exact lookup_map_replace_self m k v hany
  · rw [if_neg hany]
    have hfalse : m.any (fun p => p.1 == k) = false := by
      cases hx : m.any (fun p => p.1 == k)
      · rfl
      · exact absurd hx hany
    have h0 : m.lookup k = none := lookup_none_of_any_false m k hfalse
    rw [lookup_append, h0]
    simp [List.lookup_cons]

theorem lookup_dictSet_ne {β : Type} (m : List (String × β)) (k k2 : String) (v : β)
    (h : k2 ≠ k) : (dictSet m k v).lookup k2 = m.lookup k2 := by
  unfold dictSet
  by_cases hany : m.any (fun p => p.1 == k) = true
  · rw [if_pos hany]
    exact lookup_map_replace_ne m k k2 v h
  · rw [if_neg hany, lookup_append]
    have hb : (k2 == k) = false := beq_eq_false_iff_ne.mpr h
    simp [List.lookup_cons, hb]

/-- C5: a successful `parse_stnames` leaves the include and exclude sets
disjoint (their Python intersection is empty), and whenever the parsed
tokens place some name in both sets the call fails with the
conflicting-selection error naming exactly the offending names. -/
theorem parse_stnames_selection_disjoint (b : StatsCollectBuilder) (s : String) :
    (∀ b', parse_stnames b s = .ok b' → pyInter b'.incl b'.excl = [])
    ∧ (pyInter (parse_stnames_tokens b s).incl (parse_stnames_tokens b s).excl ≠ [] →
        parse_stnames b s = .error (.conflictingSelection
          (pyInter (parse_stnames_tokens b s).incl (parse_stnames_tokens b s).excl))) := by
  constructor
  · intro b' hok
    simp only [parse_stnames] at hok
    by_cases hbog : pyInter (parse_stnames_tokens b s).incl (parse_stnames_tokens b s).excl = []
    · rw [if_neg (not_not_intro hbog)] at hok
      cases h1 : _check_stnames (parse_stnames_tokens b s).incl with
      | error e =>
        rw [h1] at hok
        exact absurd hok (by simp)
      | ok u =>
        rw [h1] at hok
        cases h2 : _check_stnames (parse_stnames_tokens b s).excl with
        | error e =>
          rw [h2] at hok
          exact absurd hok (by simp)
        | ok u2 =>
          rw [h2] at hok
          injection hok with hok
          subst hok
          exact hbog
    · rw [if_pos hbog] at hok
      exact absurd hok (by simp)
  · intro hne
    simp only [parse_stnames]
    rw [if_pos hne]

/-- C5 witness: `"ipmi,!ipmi"` raises the conflicting-selection error naming
`ipmi`, and the successful parse of `"!ipmi,acpower"` leaves disjoint
include/exclude sets. -/
theorem parse_stnames_selection_disjoint_witness :
    parse_stnames mkBuilder "ipmi,!ipmi" = .error (.conflictingSelection ["ipmi"])
    ∧ pyInter demoC5Builder.incl demoC5Builder.excl = [] := by
  constructor
  · exact ((parse_stnames_selection_disjoint mkBuilder "ipmi,!ipmi").2
      (by decide)).trans (by decide)
  · exact (parse_stnames_selection_disjoint mkBuilder "!ipmi,acpower").1
      demoC5Builder (by decide)

/-- C10: when some name in the list is unknown, `set_enabled_stats` and
`set_disabled_stats` fail with the unknown-statistic error determined by the
first unknown name alone - the `_check_stnames` validation precedes every
descriptor mutation, so a failing call returns no facade state and the
caller's descriptor state is untouched (atomicity). -/
theorem set_stats_unknown_name_atomic (a : STCAgent) (S : List String) (n : String)
    (h : S.find? (fun m => !knownStat m) = some n) :
    a.set_enabled_stats S = .error (.unknownStat n)
    ∧ a.set_disabled_stats S = .error (.unknownStat n) := by
  have hc := check_stnames_error S n h
  constructor
  · simp only [STCAgent.set_enabled_stats, hc]
  · simp only [STCAgent.set_disabled_stats, hc]

/-- C10 witness: with `bogus` unknown, both calls fail with the
unknown-statistic error for `bogus` on a remote facade. -/
theorem set_stats_unknown_name_atomic_witness :
    (mkSTCAgent true "h").set_enabled_stats ["turbostat", "bogus"]
        = .error (.unknownStat "bogus")
    ∧ (mkSTCAgent true "h").set_disabled_stats ["turbostat", "bogus"]
        = .error (.unknownStat "bogus") :=
  set_stats_unknown_name_atomic (mkSTCAgent true "h") ["turbostat", "bogus"] "bogus" (by decide)

/-- C8: the constructed facade always carries the in-band collector, carries
the out-of-band collector exactly when the target host is remote
(`pman.is_remote`), and against a local target `discover()` and
`get_enabled_stats()` are the in-band collector's results alone. -/
theorem facade_locality_split (remote : Bool) (hostname : String)
    (availInb availOob : String → Bool) :
    ((mkSTCAgent remote hostname).oobcoll.isSome = remote)
    ∧ ((mkSTCAgent remote hostname).inbcoll = mkInBandCollector)
    ∧ ((mkSTCAgent false hostname).discover availInb availOob
        = (mkSTCAgent false hostname).inbcoll.discover availInb)
    ∧ ((mkSTCAgent false hostname).get_enabled_stats
        = (mkSTCAgent false hostname).inbcoll.get_enabled_stats) := by
  refine ⟨?_, rfl, ?_, ?_⟩
  · cases remote <;> rfl
  · simp [STCAgent.discover, mkSTCAgent]
  · simp [STCAgent.get_enabled_stats, mkSTCAgent]

/-- C9: whenever the configuration stage succeeds but nothing ends up
enabled, `create_and_configure_stcoll` treats it as a valid outcome: it
returns `None` without an error, and the finishing step closes the facade
after logging the informational "No statistics will be collected" message. -/
theorem empty_enabled_set_returns_none (stnames intervals : String) (remote : Bool)
    (hostname : String) (availInb availOob : String → Bool) (a : STCAgent)
    (h0 : ¬(stnames = "" ∨ stnames = "none"))
    (h1 : configureStage stnames intervals remote hostname availInb availOob = .ok a)
    (h2 : a.get_enabled_stats = []) :
    create_and_configure_stcoll stnames intervals remote hostname availInb availOob = .ok none
    ∧ (finishStage a).1 = none
    ∧ (finishStage a).2.closed = true
    ∧ "No statistics will be collected" ∈ (finishStage a).2.logs := by
  have hf : finishStage a
      = (none, ({ a with logs := a.logs ++ ["No statistics will be collected"] }).closeAgent) := by
    unfold finishStage
    rw [if_pos h2]
  refine ⟨?_, ?_, ?_, ?_⟩
  · unfold create_and_configure_stcoll
    rw [if_neg h0, h1]
    show Except.ok (finishStage a).1 = Except.ok none
    rw [hf]
  · rw [hf]
  · rw [hf]
    rfl
  · rw [hf]
    simp [STCAgent.closeAgent]

/-- C9 witness: requesting only the out-of-band `acpower` statistic against
a local SUT leaves nothing enabled, and the call returns `None` with the
facade closed and the message logged. -/
theorem empty_enabled_set_returns_none_witness :
    create_and_configure_stcoll "acpower" "" false "h" (fun _ => true) (fun _ => true) = .ok none
    ∧ (finishStage demoC9Agent).1 = none
    ∧ (finishStage demoC9Agent).2.closed = true
    ∧ "No statistics will be collected" ∈ (finishStage demoC9Agent).2.logs :=
  empty_enabled_set_returns_none "acpower" "" false "h" (fun _ => true) (fun _ => true)
    demoC9Agent (by decide) rfl (by decide)

theorem parse_intervals_entry_classify (b : StatsCollectBuilder) (entry : String) :
    (entryOk entry = true ∧ ∃ sn iv, split_csv_line entry ':' = [sn, iv]
      ∧ parse_intervals_entry b entry
        = .ok { b with intervals := dictSet b.intervals sn (pyFloat iv) })
    ∨ (entryOk entry = false ∧ ∃ err, parse_intervals_entry b entry = .error err
        ∧ ((∃ e2, err = .malformedEntry e2) ∨ (∃ nm, err = .unknownStat nm))) := by
  rcases hsp : split_csv_line entry ':' with _ | ⟨sn, _ | ⟨iv, _ | ⟨c3, rest⟩⟩⟩
  · right
    exact ⟨by simp [entryOk, hsp], .malformedEntry entry,
      by simp [parse_intervals_entry, hsp], Or.inl ⟨entry, rfl⟩⟩
  · right
    exact ⟨by simp [entryOk, hsp], .malformedEntry entry,
      by simp [parse_intervals_entry, hsp], Or.inl ⟨entry, rfl⟩⟩
  · by_cases hkn : knownStat sn = true
    · by_cases hfl : is_float iv = true
      · left
        refine ⟨by simp [entryOk, hsp, hkn, hfl], sn, iv, rfl, ?_⟩
        simp [parse_intervals_entry, hsp, _check_stname, hkn, hfl]
      · have hfl2 : is_float iv = false := by
          cases hx : is_float iv
          · rfl
          · exact absurd hx hfl
        right
        refine ⟨by simp [entryOk, hsp, hfl2], .malformedEntry entry, ?_, Or.inl ⟨entry, rfl⟩⟩
        simp [parse_intervals_entry, hsp, _check_stname, hkn, hfl2]
    · have hkn2 : knownStat sn = false := by
        cases hx : knownStat sn
        · rfl
        · exact absurd hx hkn
      right
      refine ⟨by simp [entryOk, hsp, hkn2], .unknownStat sn, ?_, Or.inr ⟨sn, rfl⟩⟩
      simp [parse_intervals_entry, hsp, _check_stname, hkn2]
  · right
    exact ⟨by simp [entryOk, hsp], .malformedEntry entry,
      by simp [parse_intervals_entry, hsp], Or.inl ⟨entry, rfl⟩⟩

theorem foldl_lastIntervalStep (n : String) (t : List String) (acc : Option PyFloat) :
    t.foldl (lastIntervalStep n) acc = (t.foldl (lastIntervalStep n) none).or acc := by
  induction t generalizing acc with
  | nil => simp
  | cons e t ih =>
    rw [List.foldl_cons, List.foldl_cons, ih (lastIntervalStep n acc e),
      ih (lastIntervalStep n none e)]
    rcases hsp : split_csv_line e ':' with _ | ⟨sn, _ | ⟨iv, _ | ⟨c3, rest⟩⟩⟩
    · simp [lastIntervalStep, hsp]
    · simp [lastIntervalStep, hsp]
    · by_cases hsn : sn = n
      · simp [lastIntervalStep, hsp, hsn, Option.or_assoc]
      · simp [lastIntervalStep, hsp, hsn]
    · simp [lastIntervalStep, hsp]

theorem parse_intervals_fold_isOk (t : List String) (b : StatsCollectBuilder) :
    exIsOk (t.foldlM parse_intervals_entry b) = t.all entryOk := by
  induction t generalizing b with
  | nil => rfl
  | cons e t ih =>
    rw [List.foldlM_cons]
    rcases parse_intervals_entry_classify b e with ⟨hok, sn, iv, hsp, heq⟩ | ⟨hbad, err, heq, hcl⟩
    · rw [heq]
      have hbind : (Except.ok { b with intervals := dictSet b.intervals sn (pyFloat iv) } >>=
          fun b' => t.foldlM parse_intervals_entry b')
          = t.foldlM parse_intervals_entry
              { b with intervals := dictSet b.intervals sn (pyFloat iv) } := rfl
      rw [hbind, ih]
      simp [List.all_cons, hok]
    · rw [heq]
      have hbind : (Except.error err >>= fun b' => t.foldlM parse_intervals_entry b')
          = (Except.error err : Except StErr StatsCollectBuilder) := rfl
      rw [hbind]
      simp [List.all_cons, hbad, exIsOk]

theorem parse_intervals_fold_lookup (t : List String) (b b' : StatsCollectBuilder)
    (h : t.foldlM parse_intervals_entry b = .ok b') (n : String) :
    b'.intervals.lookup n = (t.foldl (lastIntervalStep n) none).or (b.intervals.lookup n) := by
  induction t generalizing b with
  | nil =>
    have hb : Except.ok b = Except.ok b' := h
    injection hb with hb
    subst hb
    simp
  | cons e t ih =>
    rw [List.foldlM_cons] at h
    rcases parse_intervals_entry_classify b e with ⟨hok, sn, iv, hsp, heq⟩ | ⟨hbad, err, heq, hcl⟩
    · rw [heq] at h
      have hbind : (Except.ok { b with intervals := dictSet b.intervals sn (pyFloat iv) } >>=
          fun b2 => t.foldlM parse_intervals_entry b2)
          = t.foldlM parse_intervals_entry
              { b with intervals := dictSet b.intervals sn (pyFloat iv) } := rfl
      rw [hbind] at h
      have hrec := ih _ h
      rw [List.foldl_cons, foldl_lastIntervalStep, Option.or_assoc, hrec]
      congr 1
      by_cases hsn : sn = n
      · subst hsn
        rw [lookup_dictSet_self]
        simp [lastIntervalStep, hsp]
      · rw [lookup_dictSet_ne _ _ _ _ (Ne.symm hsn)]
        simp [lastIntervalStep, hsp, hsn]
    · rw [heq] at h
      have hbind : (Except.error err >>= fun b2 => t.foldlM parse_intervals_entry b2)
          = (Except.error err : Except StErr StatsCollectBuilder) := rfl
      rw [hbind] at h
      exact Except.noConfusion h

theorem parse_intervals_fold_error (t : List String) (b : StatsCollectBuilder) (err : StErr)
    (h : t.foldlM parse_intervals_entry b = .error err) :
    (∃ entry, err = .malformedEntry entry) ∨ (∃ nm, err = .unknownStat nm) := by
  induction t generalizing b with
  | nil =>
    have hb : Except.ok b = Except.error err := h
    exact Except.noConfusion hb
  | cons e t ih =>
    rw [List.foldlM_cons] at h
    rcases parse_intervals_entry_classify b e with ⟨hok, sn, iv, hsp, heq⟩ | ⟨hbad, err2, heq, hcl⟩
    · rw [heq] at h
      have hbind : (Except.ok { b with intervals := dictSet b.intervals sn (pyFloat iv) } >>=
          fun b2 => t.foldlM parse_intervals_entry b2)
          = t.foldlM parse_intervals_entry
              { b with intervals := dictSet b.intervals sn (pyFloat iv) } := rfl
      rw [hbind] at h
      exact ih _ h
    · rw [heq] at h
      have hbind : (Except.error err2 >>= fun b2 => t.foldlM parse_intervals_entry b2)
          = (Except.error err2 : Except StErr StatsCollectBuilder) := rfl
      rw [hbind] at h
      injection h with h
      subst h
      exact hcl

theorem parse_intervals_entry_err (b : StatsCollectBuilder) (entry : String) :
    ((split_csv_line entry ':').length ≠ 2 →
      parse_intervals_entry b entry = .error (.malformedEntry entry))
    ∧ (∀ sn iv, split_csv_line entry ':' = [sn, iv] →
        (knownStat sn = false → parse_intervals_entry b entry = .error (.unknownStat sn))
        ∧ (knownStat sn = true → is_float iv = false →
            parse_intervals_entry b entry = .error (.malformedEntry entry))) := by
  constructor
  · intro hlen
    rcases hsp : split_csv_line entry ':' with _ | ⟨sn, _ | ⟨iv, _ | ⟨c3, rest⟩⟩⟩
    · simp [parse_intervals_entry, hsp]
    · simp [parse_intervals_entry, hsp]
    · rw [hsp] at hlen
      exact absurd rfl hlen
    · simp [parse_intervals_entry, hsp]
  · intro sn iv hsp
    constructor
    · intro hkn
      simp [parse_intervals_entry, hsp, _check_stname, hkn]
    · intro hkn hfl
      simp [parse_intervals_entry, hsp, _check_stname, hkn, hfl]

theorem parse_intervals_fold_first_error (pre : List String) (entry : String)
    (rest : List String) (b : StatsCollectBuilder) (err : StErr)
    (hpre : ∀ e ∈ pre, entryOk e = true)
    (herr : ∀ b2 : StatsCollectBuilder, parse_intervals_entry b2 entry = .error err) :
    (pre ++ entry :: rest).foldlM parse_intervals_entry b = .error err := by
  induction pre generalizing b with
  | nil =>
    rw [List.nil_append, List.foldlM_cons, herr b]
    rfl
  | cons e pre ih =>
    have he : entryOk e = true := hpre e (List.mem_cons_self e pre)
    rcases parse_intervals_entry_classify b e with ⟨_, sn, iv, hsp, heq⟩ | ⟨hbadE, _⟩
    · rw [List.cons_append, List.foldlM_cons, heq]
      have hbind : (Except.ok { b with intervals := dictSet b.intervals sn (pyFloat iv) } >>=
          fun b2 => (pre ++ entry :: rest).foldlM parse_intervals_entry b2)
          = (pre ++ entry :: rest).foldlM parse_intervals_entry
              { b with intervals := dictSet b.intervals sn (pyFloat iv) } := rfl
      rw [hbind]
      exact ih _ (fun e2 he2 => hpre e2 (List.mem_cons_of_mem e he2))
    · rw [he] at hbadE
      exact absurd hbadE (by simp)

/-- C3 (amended): `parse_intervals` succeeds exactly when every entry splits
into two colon-separated fields with a known statistic name and a value
accepted by `Trivial.is_float`; at the first failing entry (all entries
before it well-formed) the error is attributed as the claim says: a wrong
shape raises the malformed-entry error for that entry, an unknown name the
unknown-statistic error for that name, and a non-numeric value the
malformed-entry error for that entry.  Positivity is not checked -
non-positive numeric values are accepted and stored.  On success the
intervals map holds, for each name, the float value of its last entry (last
occurrence wins), other names keeping their previous value, and every error
is one of the two kinds above. -/
theorem parse_intervals_shape_and_last_wins (b : StatsCollectBuilder) (s : String) :
    (exIsOk (parse_intervals b s) = (split_csv_line s ',').all entryOk)
    ∧ (∀ b', parse_intervals b s = .ok b' → ∀ n,
        b'.intervals.lookup n
          = (lastParsedInterval (split_csv_line s ',') n).or (b.intervals.lookup n))
    ∧ (∀ err, parse_intervals b s = .error err →
        (∃ entry, err = .malformedEntry entry) ∨ (∃ nm, err = .unknownStat nm))
    ∧ (∀ pre entry rest, split_csv_line s ',' = pre ++ entry :: rest →
        (∀ e ∈ pre, entryOk e = true) →
        (((split_csv_line entry ':').length ≠ 2 →
            parse_intervals b s = .error (.malformedEntry entry))
          ∧ (∀ sn iv, split_csv_line entry ':' = [sn, iv] →
              (knownStat sn = false → parse_intervals b s = .error (.unknownStat sn))
              ∧ (knownStat sn = true → is_float iv = false →
                  parse_intervals b s = .error (.malformedEntry entry))))) := by
  refine ⟨parse_intervals_fold_isOk _ _, ?_, ?_, ?_⟩
  · intro b' h n
    exact parse_intervals_fold_lookup _ _ _ h n
  · intro err h
    exact parse_intervals_fold_error _ _ _ h
  · intro pre entry rest hsplit hpre
    have hps : parse_intervals b s = (pre ++ entry :: rest).foldlM parse_intervals_entry b := by
      unfold parse_intervals
      rw [hsplit]
    constructor
    · intro hlen
      rw [hps]
      exact parse_intervals_fold_first_error pre entry rest b _ hpre
        (fun b2 => (parse_intervals_entry_err b2 entry).1 hlen)
    · intro sn iv hsp
      constructor
      · intro hkn
        rw [hps]
        exact parse_intervals_fold_first_error pre entry rest b _ hpre
          (fun b2 => ((parse_intervals_entry_err b2 entry).2 sn iv hsp).1 hkn)
      · intro hkn hfl
        rw [hps]
        exact parse_intervals_fold_first_error pre entry rest b _ hpre
          (fun b2 => ((parse_intervals_entry_err b2 entry).2 sn iv hsp).2 hkn hfl)

/-- C3 witness: `"turbostat:2,turbostat:3"` parses successfully with the
last occurrence `3.0` stored for `turbostat`; `"bad"` (wrong shape) raises
the malformed-entry error, `"bogus:1"` (unknown name) the unknown-statistic
error, and `"acpower:aa"` (non-numeric value) the malformed-entry error. -/
theorem parse_intervals_shape_and_last_wins_witness :
    exIsOk (parse_intervals mkBuilder "turbostat:2,turbostat:3") = true
    ∧ demoC3Builder.intervals.lookup "turbostat" = some (.finite 3)
    ∧ parse_intervals mkBuilder "bad" = .error (.malformedEntry "bad")
    ∧ parse_intervals mkBuilder "bogus:1" = .error (.unknownStat "bogus")
    ∧ parse_intervals mkBuilder "acpower:aa" = .error (.malformedEntry "acpower:aa") := by
  refine ⟨?_, ?_, ?_, ?_, ?_⟩
  · exact ((parse_intervals_shape_and_last_wins mkBuilder "turbostat:2,turbostat:3").1).trans
      (by decide)
  · exact (((parse_intervals_shape_and_last_wins mkBuilder "turbostat:2,turbostat:3").2.1)
      demoC3Builder rfl "turbostat").trans (by decide)
  · exact ((parse_intervals_shape_and_last_wins mkBuilder "bad").2.2.2
      [] "bad" [] (by decide) (by decide)).1 (by decide)
  · exact (((parse_intervals_shape_and_last_wins mkBuilder "bogus:1").2.2.2
      [] "bogus:1" [] (by decide) (by decide)).2 "bogus" "1" (by decide)).1 (by decide)
  · exact (((parse_intervals_shape_and_last_wins mkBuilder "acpower:aa").2.2.2
      [] "acpower:aa" [] (by decide) (by decide)).2 "acpower" "aa" (by decide)).2
      (by decide) (by decide)

theorem known_cases (n : String) (h : knownStat n = true) :
    n = "sysinfo" ∨ n = "turbostat" ∨ n = "ipmi-inband" ∨ n = "ipmi" ∨ n = "acpower" := by
  by_contra hcon
  push_neg at hcon
  obtain ⟨h1, h2, h3, h4, h5⟩ := hcon
  have hb1 : (n == "sysinfo") = false := beq_eq_false_iff_ne.mpr h1
  have hb2 : (n == "turbostat") = false := beq_eq_false_iff_ne.mpr h2
  have hb3 : (n == "ipmi-inband") = false := beq_eq_false_iff_ne.mpr h3
  have hb4 : (n == "ipmi") = false := beq_eq_false_iff_ne.mpr h4
  have hb5 : (n == "acpower") = false := beq_eq_false_iff_ne.mpr h5
  simp [knownStat, DEFAULT_STINFO, List.lookup_cons, hb1, hb2, hb3, hb4, hb5] at h

theorem mem_inbStnames_iff (n : String) (hkn : knownStat n = true) :
    n ∈ inbStnames ↔ inbandStat n = true := by
  rcases known_cases n hkn with rfl | rfl | rfl | rfl | rfl <;> decide

theorem mem_oobStnames_iff (n : String) (hkn : knownStat n = true) :
    n ∈ oobStnames ↔ inbandStat n = false := by
  rcases known_cases n hkn with rfl | rfl | rfl | rfl | rfl <;> decide

theorem get_enabled_of_setAll (l : List (String × StInfo)) (S : List String) :
    ((l.map (fun p => (p.1, { p.2 with enabled := S.contains p.1 }))).filter
        (fun p => p.2.enabled)).map Prod.fst
      = (l.map Prod.fst).filter (fun n => S.contains n) := by
  induction l with
  | nil => rfl
  | cons p t ih =>
    obtain ⟨k, v⟩ := p
    cases hc : S.contains k with
    | true =>
      simp only [List.map_cons, List.filter_cons, hc, eq_self_iff_true, if_true, ih]
    | false =>
      simp only [List.map_cons, List.filter_cons, hc, Bool.false_eq_true, if_false, ih]

theorem separate_fold_mem (S : List String) (hk : ∀ n ∈ S, knownStat n = true)
    (acc : List String × List String) :
    ∃ pr, S.foldlM separate_step acc = .ok pr
      ∧ (∀ n, n ∈ pr.1 ↔ (n ∈ acc.1 ∨ (n ∈ S ∧ inbandStat n = true)))
      ∧ (∀ n, n ∈ pr.2 ↔ (n ∈ acc.2 ∨ (n ∈ S ∧ inbandStat n = false))) := by
  induction S generalizing acc with
  | nil => exact ⟨acc, rfl, by simp, by simp⟩
  | cons m t ih =>
    have hkm : knownStat m = true := hk m (List.mem_cons_self m t)
    have hkt : ∀ n ∈ t, knownStat n = true := fun n hn => hk n (List.mem_cons_of_mem m hn)
    rw [List.foldlM_cons]
    by_cases him : inbandStat m = true
    · have hstep : separate_step acc m = .ok (addSet acc.1 m, acc.2) := by
        simp [separate_step, _check_stname, hkm, him]
      rw [hstep]
      have hbind : (Except.ok (addSet acc.1 m, acc.2) >>=
          fun acc2 => t.foldlM separate_step acc2)
          = t.foldlM separate_step (addSet acc.1 m, acc.2) := rfl
      rw [hbind]
      obtain ⟨pr, hpr, h1, h2⟩ := ih hkt (addSet acc.1 m, acc.2)
      refine ⟨pr, hpr, ?_, ?_⟩
      · intro n
        rw [h1 n]
        simp only [mem_addSet]
        constructor
        · rintro ((h | rfl) | ⟨hn, hi⟩)
          · exact Or.inl h
          · exact Or.inr ⟨List.mem_cons_self _ _, him⟩
          · exact Or.inr ⟨List.mem_cons_of_mem _ hn, hi⟩
        · rintro (h | ⟨hmem, hi⟩)
          · exact Or.inl (Or.inl h)
          · rcases List.mem_cons.mp hmem with rfl | hn
            · exact Or.inl (Or.inr rfl)
            · exact Or.inr ⟨hn, hi⟩
      · intro n
        rw [h2 n]
        constructor
        · rintro (h | ⟨hn, hi⟩)
          · exact Or.inl h
          · exact Or.inr ⟨List.mem_cons_of_mem _ hn, hi⟩
        · rintro (h | ⟨hmem, hi⟩)
          · exact Or.inl h
          · rcases List.mem_cons.mp hmem with rfl | hn
            · rw [him] at hi
              exact absurd hi (by simp)
            · exact Or.inr ⟨hn, hi⟩
    · have him2 : inbandStat m = false := by
        cases hx : inbandStat m
        · rfl
        · exact absurd hx him
      have hstep : separate_step acc m = .ok (acc.1, addSet acc.2 m) := by
        simp [separate_step, _check_stname, hkm, him2]
      rw [hstep]
      have hbind : (Except.ok (acc.1, addSet acc.2 m) >>=
          fun acc2 => t.foldlM separate_step acc2)
          = t.foldlM separate_step (acc.1, addSet acc.2 m) := rfl
      rw [hbind]
      obtain ⟨pr, hpr, h1, h2⟩ := ih hkt (acc.1, addSet acc.2 m)
      refine ⟨pr, hpr, ?_, ?_⟩
      · intro n
        rw [h1 n]
        constructor
        · rintro (h | ⟨hn, hi⟩)
          · exact Or.inl h
          · exact Or.inr ⟨List.mem_cons_of_mem _ hn, hi⟩
        · rintro (h | ⟨hmem, hi⟩)
          · exact Or.inl h
          · rcases List.mem_cons.mp hmem with rfl | hn
            · rw [him2] at hi
              exact absurd hi (by simp)
            · exact Or.inr ⟨hn, hi⟩
      · intro n
        rw [h2 n]
        simp only [mem_addSet]
        constructor
        · rintro ((h | rfl) | ⟨hn, hi⟩)
          · exact Or.inl h
          · exact Or.inr ⟨List.mem_cons_self _ _, him2⟩
          · exact Or.inr ⟨List.mem_cons_of_mem _ hn, hi⟩
        · rintro (h | ⟨hmem, hi⟩)
          · exact Or.inl (Or.inl h)
          · rcases List.mem_cons.mp hmem with rfl | hn
            · exact Or.inl (Or.inr rfl)
            · exact Or.inr ⟨hn, hi⟩

/-- C6: `set_enabled_stats` on a well-formed facade with known names
succeeds, and a name is in the resulting `get_enabled_stats()` exactly when
it was given and its locality's collector is present: the named owned
statistics become enabled, every other owned statistic is disabled, and
names whose collector is absent are dropped. -/
theorem set_enabled_stats_exact (a : STCAgent) (S : List String)
    (hwf : WFagent a = true) (hk : ∀ n ∈ S, knownStat n = true) :
    ∃ a2, a.set_enabled_stats S = .ok a2
      ∧ ∀ n, (n ∈ a2.get_enabled_stats ↔ (n ∈ S ∧ statPresent a n = true)) := by
  have hc := check_stnames_ok S hk
  obtain ⟨⟨I, O⟩, hpr, h1, h2⟩ := separate_fold_mem S hk ([], [])
  have hsep : _separate_inb_vs_oob S = .ok (I, O) := hpr
  simp only [List.not_mem_nil, false_or] at h1 h2
  cases hoob : a.oobcoll with
  | none =>
    have hwf1 : a.inbcoll.stinfo.map Prod.fst = inbStnames := by
      simp only [WFagent, hoob, Bool.and_true, beq_iff_eq] at hwf
      exact hwf
    refine ⟨{ a with
        inbcoll := { a.inbcoll with stinfo := a.inbcoll.stinfo.map (fun p =>
          (p.1, { p.2 with enabled := I.contains p.1 })) },
        oobcoll := none }, ?_, ?_⟩
    · simp only [STCAgent.set_enabled_stats, hc, hsep, hoob]
      rfl
    · intro n
      have hgen : ({ a with
          inbcoll := { a.inbcoll with stinfo := a.inbcoll.stinfo.map (fun p =>
            (p.1, { p.2 with enabled := I.contains p.1 })) },
          oobcoll := none } : STCAgent).get_enabled_stats
          = inbStnames.filter (fun m => I.contains m) := by
        simp only [STCAgent.get_enabled_stats, Collector.get_enabled_stats, List.append_nil,
          get_enabled_of_setAll, hwf1]
      rw [hgen, List.mem_filter]
      constructor
      · rintro ⟨hmi, hcont⟩
        have hnI : n ∈ I := List.elem_iff.mp hcont
        have hSn := (h1 n).mp hnI
        refine ⟨hSn.1, ?_⟩
        simp [statPresent, hSn.2]
      · rintro ⟨hS, hpres⟩
        have hkn := hk n hS
        cases hbn : inbandStat n with
        | true =>
          refine ⟨(mem_inbStnames_iff n hkn).mpr hbn, ?_⟩
          exact List.elem_iff.mpr ((h1 n).mpr ⟨hS, hbn⟩)
        | false =>
          exfalso
          simp [statPresent, hbn, hoob] at hpres
  | some oc =>
    have hwfc : a.inbcoll.stinfo.map Prod.fst = inbStnames
        ∧ oc.stinfo.map Prod.fst = oobStnames := by
      simp only [WFagent, hoob, Bool.and_eq_true, beq_iff_eq] at hwf
      exact hwf
    refine ⟨{ a with
        inbcoll := { a.inbcoll with stinfo := a.inbcoll.stinfo.map (fun p =>
          (p.1, { p.2 with enabled := I.contains p.1 })) },
        oobcoll := some { oc with stinfo := oc.stinfo.map (fun p =>
          (p.1, { p.2 with enabled := O.contains p.1 })) } }, ?_, ?_⟩
    · simp only [STCAgent.set_enabled_stats, hc, hsep, hoob]
      rfl
    · intro n
      have hgen : ({ a with
          inbcoll := { a.inbcoll with stinfo := a.inbcoll.stinfo.map (fun p =>
            (p.1, { p.2 with enabled := I.contains p.1 })) },
          oobcoll := some { oc with stinfo := oc.stinfo.map (fun p =>
            (p.1, { p.2 with enabled := O.contains p.1 })) } } : STCAgent).get_enabled_stats
          = inbStnames.filter (fun m => I.contains m)
            ++ oobStnames.filter (fun m => O.contains m) := by
        simp only [STCAgent.get_enabled_stats, Collector.get_enabled_stats,
          get_enabled_of_setAll, hwfc.1, hwfc.2]
      rw [hgen, List.mem_append, List.mem_filter, List.mem_filter]
      constructor
      · rintro (⟨hmi, hcont⟩ | ⟨hmo, hcont⟩)
        · have hSn := (h1 n).mp (List.elem_iff.mp hcont)
          refine ⟨hSn.1, ?_⟩
          simp [statPresent, hSn.2]
        · have hSn := (h2 n).mp (List.elem_iff.mp hcont)
          refine ⟨hSn.1, ?_⟩
          simp [statPresent, hSn.2, hoob]
      · rintro ⟨hS, hpres⟩
        have hkn := hk n hS
        cases hbn : inbandStat n with
        | true =>
          exact Or.inl ⟨(mem_inbStnames_iff n hkn).mpr hbn,
            List.elem_iff.mpr ((h1 n).mpr ⟨hS, hbn⟩)⟩
        | false =>
          exact Or.inr ⟨(mem_oobStnames_iff n hkn).mpr hbn,
            List.elem_iff.mpr ((h2 n).mpr ⟨hS, hbn⟩)⟩

/-- C6 witness: enabling `turbostat` and `ipmi` on the fresh remote facade
yields exactly those two enabled, with `sysinfo` (not requested) disabled. -/
theorem set_enabled_stats_exact_witness :
    (mkSTCAgent true "h").set_enabled_stats ["turbostat", "ipmi"] = .ok demoC6Agent
    ∧ "turbostat" ∈ demoC6Agent.get_enabled_stats
    ∧ "sysinfo" ∉ demoC6Agent.get_enabled_stats := by
  obtain ⟨a2, ha, hiff⟩ := set_enabled_stats_exact (mkSTCAgent true "h") ["turbostat", "ipmi"]
    (by decide) (by decide)
  have hd : (mkSTCAgent true "h").set_enabled_stats ["turbostat", "ipmi"]
      = .ok demoC6Agent := by decide
  have h2 : a2 = demoC6Agent := by
    have hx := ha.symm.trans hd
    injection hx
  subst h2
  refine ⟨hd, (hiff "turbostat").mpr (by decide), fun hmem => ?_⟩
  have hx := (hiff "sysinfo").mp hmem
  revert hx
  decide

/-- C2 (amended): for an out-of-band statistic name on a facade whose
out-of-band collector is absent, `set_disabled_stats`, `set_enabled_stats`
and `set_intervals` silently skip that name's portion of the call (no error;
the facade is left as if the name had not been passed), but `set_prop` does
not skip: it raises the `ErrorNotFound` "statistics ... is not available"
error for such a name. -/
theorem oob_portion_skipped_when_oob_absent (a : STCAgent) (stname : String)
    (hm : stname ∈ oobStnames) (habs : a.oobcoll = none) (hwf : WFagent a = true)
    (v : PyFloat) (prop value : String) :
    a.set_disabled_stats [stname] = .ok a
    ∧ a.set_enabled_stats [stname] = a.set_enabled_stats []
    ∧ a.set_intervals [(stname, v)] = .ok (a, [])
    ∧ a.set_prop stname prop value = .error (.notAvailable stname) := by
  obtain ⟨rem, hn, inb, oob, il, lg, cl⟩ := a
  cases oob with
  | some oc => exact absurd habs (by simp)
  | none =>
    have hkeys : inb.stinfo.map Prod.fst = inbStnames := by
      simp only [WFagent, Bool.and_true, beq_iff_eq] at hwf
      exact hwf
    have hm2 : stname = "ipmi" ∨ stname = "acpower" := by
      have he : oobStnames = ["ipmi", "acpower"] := rfl
      rw [he] at hm
      simpa using hm
    have hlook : inb.stinfo.lookup stname = none := by
      apply lookup_eq_none_of_not_mem_keys
      rw [hkeys]
      rcases hm2 with rfl | rfl <;> decide
    rcases hm2 with rfl | rfl
    · refine ⟨rfl, rfl, rfl, ?_⟩
      simp only [STCAgent.set_prop, STCAgent._get_stinfo,
        show _check_stname "ipmi" = Except.ok () from rfl, hlook]
    · refine ⟨rfl, rfl, rfl, ?_⟩
      simp only [STCAgent.set_prop, STCAgent._get_stinfo,
        show _check_stname "acpower" = Except.ok () from rfl, hlook]

/-- C2 witness: the amended behavior at the local facade and the
out-of-band name `acpower`. -/
theorem oob_portion_skipped_when_oob_absent_witness :
    (mkSTCAgent false "h").set_disabled_stats ["acpower"] = .ok (mkSTCAgent false "h")
    ∧ (mkSTCAgent false "h").set_enabled_stats ["acpower"]
        = (mkSTCAgent false "h").set_enabled_stats []
    ∧ (mkSTCAgent false "h").set_intervals [("acpower", .finite 1)]
        = .ok (mkSTCAgent false "h", [])
    ∧ (mkSTCAgent false "h").set_prop "acpower" "devnode" "x"
        = .error (.notAvailable "acpower") :=
  oob_portion_skipped_when_oob_absent (mkSTCAgent false "h") "acpower" (by decide) rfl
    (by decide) (.finite 1) "devnode" "x"

/-- C4: when the out-of-band collector exists and both `ipmi-inband`
(in-band) and `ipmi` (out-of-band) are enabled, `configure()` leaves exactly
the catalog-preferred `ipmi` enabled: `ipmi-inband` is disabled and the
informational note is logged; when the out-of-band collector is absent,
`configure()` changes no descriptor state. -/
theorem configure_resolves_ipmi_conflict (a : STCAgent) :
    (∀ oc, a.oobcoll = some oc →
      ((a.inbcoll.stinfo.lookup "ipmi-inband").map (fun si => si.enabled)).getD false = true →
      ((oc.stinfo.lookup "ipmi").map (fun si => si.enabled)).getD false = true →
      ((((a.configure).inbcoll.stinfo.lookup "ipmi-inband").map
            (fun si => si.enabled)).getD false = false
        ∧ (∃ oc2, (a.configure).oobcoll = some oc2
            ∧ ((oc2.stinfo.lookup "ipmi").map (fun si => si.enabled)).getD false = true)
        ∧ "Disabling ipmi-inband statistics in favor of ipmi" ∈ (a.configure).logs))
    ∧ (a.oobcoll = none →
        ((a.configure).inbcoll.stinfo = a.inbcoll.stinfo ∧ (a.configure).oobcoll = none)) := by
  constructor
  · intro oc hsome hinb hoob
    have hcond : (((a.inbcoll.stinfo.lookup "ipmi-inband").map (fun si => si.enabled)).getD false
        && ((oc.stinfo.lookup "ipmi").map (fun si => si.enabled)).getD false) = true := by
      rw [hinb, hoob]
      rfl
    have hhandle : a._handle_conflicting_stats
        = { a with inbcoll := a.inbcoll.setEnabledFlag "ipmi-inband" false,
                   logs := a.logs ++ ["Disabling ipmi-inband statistics in favor of ipmi"] } := by
      simp only [STCAgent._handle_conflicting_stats, hsome, hcond, if_true]
    have hconf : a.configure
        = { a with inbcoll := (a.inbcoll.setEnabledFlag "ipmi-inband" false).configure,
                   oobcoll := some oc.configure,
                   logs := a.logs ++ ["Disabling ipmi-inband statistics in favor of ipmi"] } := by
      simp only [STCAgent.configure, hhandle, hsome]
    obtain ⟨si, hsi, hen⟩ : ∃ si, a.inbcoll.stinfo.lookup "ipmi-inband" = some si
        ∧ si.enabled = true := by
      cases hl : a.inbcoll.stinfo.lookup "ipmi-inband" with
      | none =>
        rw [hl] at hinb
        simp at hinb
      | some si =>
        rw [hl] at hinb
        simp at hinb
        exact ⟨si, rfl, hinb⟩
    refine ⟨?_, ⟨oc.configure, ?_, ?_⟩, ?_⟩
    · rw [hconf]
      simp only [Collector.configure, Collector.setEnabledFlag]
      rw [lookup_map_update "ipmi-inband" "ipmi-inband"
        (fun si => { si with enabled := false }) a.inbcoll.stinfo]
      rw [if_pos rfl, hsi]
      rfl
    · rw [hconf]
    · simpa [Collector.configure] using hoob
    · rw [hconf]
      simp
  · intro habs
    have hhandle : a._handle_conflicting_stats = a := by
      unfold STCAgent._handle_conflicting_stats
      rw [habs]
    have hconf : a.configure = { a with inbcoll := a.inbcoll.configure } := by
      simp only [STCAgent.configure, hhandle, habs]
    constructor
    · rw [hconf]
      rfl
    · rw [hconf]
      simpa using habs

theorem configure_oob_none (x : STCAgent) (hx : x.oobcoll = none) :
    x.configure = { x with inbcoll := x.inbcoll.configure } := by
  have hhandle : x._handle_conflicting_stats = x := by
    unfold STCAgent._handle_conflicting_stats
    rw [hx]
  simp only [STCAgent.configure, hhandle, hx]

theorem configure_oob_some_cond_false (x : STCAgent) (oc : Collector)
    (hx : x.oobcoll = some oc)
    (hc : (((x.inbcoll.stinfo.lookup "ipmi-inband").map (fun si => si.enabled)).getD false
        && ((oc.stinfo.lookup "ipmi").map (fun si => si.enabled)).getD false) = false) :
    x.configure = { x with inbcoll := x.inbcoll.configure, oobcoll := some oc.configure } := by
  have hhandle : x._handle_conflicting_stats = x := by
    simp only [STCAgent._handle_conflicting_stats, hx, hc]
    rfl
  simp only [STCAgent.configure, hhandle, hx]

theorem configure_oob_some_cond_true (x : STCAgent) (oc : Collector)
    (hx : x.oobcoll = some oc)
    (hc : (((x.inbcoll.stinfo.lookup "ipmi-inband").map (fun si => si.enabled)).getD false
        && ((oc.stinfo.lookup "ipmi").map (fun si => si.enabled)).getD false) = true) :
    x.configure
      = { x with
          inbcoll := (x.inbcoll.setEnabledFlag "ipmi-inband" false).configure,
          oobcoll := some oc.configure,
          logs := x.logs ++ ["Disabling ipmi-inband statistics in favor of ipmi"] } := by
  have hhandle : x._handle_conflicting_stats
      = { x with
          inbcoll := x.inbcoll.setEnabledFlag "ipmi-inband" false,
          logs := x.logs ++ ["Disabling ipmi-inband statistics in favor of ipmi"] } := by
    simp only [STCAgent._handle_conflicting_stats, hx, hc, if_true]
  simp only [STCAgent.configure, hhandle, hx]

/-- C7: `configure()` is idempotent on the facade state: the second call
finds the IPMI conflict already resolved and commits the same snapshots, so
the complete state after two calls equals the state after one - in
particular `get_enabled_stats()` and the configured intervals are
unchanged. -/
theorem configure_idempotent (a : STCAgent) :
    a.configure.configure = a.configure
    ∧ a.configure.configure.get_enabled_stats = a.configure.get_enabled_stats := by
  have hmain : a.configure.configure = a.configure := by
    cases hoob : a.oobcoll with
    | none =>
      have h1 := configure_oob_none a hoob
      have h2 : (a.configure).oobcoll = none := by
        rw [h1]
        simpa using hoob
      have h3 := configure_oob_none a.configure h2
      rw [h3, h1]
      rfl
    | some oc =>
      by_cases hcond : (((a.inbcoll.stinfo.lookup "ipmi-inband").map
          (fun si => si.enabled)).getD false
          && ((oc.stinfo.lookup "ipmi").map (fun si => si.enabled)).getD false) = true
      · have h1 := configure_oob_some_cond_true a oc hoob hcond
        obtain ⟨si, hsi, hen⟩ : ∃ si, a.inbcoll.stinfo.lookup "ipmi-inband" = some si
            ∧ si.enabled = true := by
          cases hl : a.inbcoll.stinfo.lookup "ipmi-inband" with
          | none =>
            rw [hl] at hcond
            simp at hcond
          | some si =>
            rw [hl] at hcond
            simp at hcond
            exact ⟨si, rfl, hcond.1⟩
        have hinb2 : (((a.configure).inbcoll.stinfo.lookup "ipmi-inband").map
            (fun si => si.enabled)).getD false = false := by
          rw [h1]
          simp only [Collector.configure, Collector.setEnabledFlag]
          rw [lookup_map_update "ipmi-inband" "ipmi-inband"
            (fun si => { si with enabled := false }) a.inbcoll.stinfo]
          rw [if_pos rfl, hsi]
          rfl
        have hoob2 : (a.configure).oobcoll = some oc.configure := by
          rw [h1]
        have hcond2 : ((((a.configure).inbcoll.stinfo.lookup "ipmi-inband").map
            (fun si => si.enabled)).getD false
            && (((oc.configure).stinfo.lookup "ipmi").map
              (fun si => si.enabled)).getD false) = false := by
          rw [hinb2]
          simp
        have h2 := configure_oob_some_cond_false a.configure oc.configure hoob2 hcond2
        rw [h2, h1]
        rfl
      · have hcf : (((a.inbcoll.stinfo.lookup "ipmi-inband").map
            (fun si => si.enabled)).getD false
            && ((oc.stinfo.lookup "ipmi").map (fun si => si.enabled)).getD false) = false := by
          cases hx : (((a.inbcoll.stinfo.lookup "ipmi-inband").map
              (fun si => si.enabled)).getD false
              && ((oc.stinfo.lookup "ipmi").map (fun si => si.enabled)).getD false)
          · rfl
          · exact absurd hx hcond
        have h1 := configure_oob_some_cond_false a oc hoob hcf
        have hoob2 : (a.configure).oobcoll = some oc.configure := by
          rw [h1]
        have heq2 : (a.configure).inbcoll.stinfo = a.inbcoll.stinfo := by
          rw [h1]
          rfl
        have hcond2 : ((((a.configure).inbcoll.stinfo.lookup "ipmi-inband").map
            (fun si => si.enabled)).getD false
            && (((oc.configure).stinfo.lookup "ipmi").map
              (fun si => si.enabled)).getD false) = false := by
          rw [heq2]
          simpa [Collector.configure] using hcf
        have h2 := configure_oob_some_cond_false a.configure oc.configure hoob2 hcond2
        rw [h2, h1]
        rfl
  exact ⟨hmain, by rw [hmain]⟩

/-- C4 witness: the fresh remote facade has both IPMI flavors enabled by
default, and one `configure()` resolves the conflict toward `ipmi`. -/
theorem configure_resolves_ipmi_conflict_witness :
    ((((mkSTCAgent true "h").configure).inbcoll.stinfo.lookup "ipmi-inband").map
        (fun si => si.enabled)).getD false = false
    ∧ (∃ oc2, ((mkSTCAgent true "h").configure).oobcoll = some oc2
        ∧ ((oc2.stinfo.lookup "ipmi").map (fun si => si.enabled)).getD false = true)
    ∧ "Disabling ipmi-inband statistics in favor of ipmi"
        ∈ ((mkSTCAgent true "h").configure).logs :=
  (configure_resolves_ipmi_conflict (mkSTCAgent true "h")).1 mkOutOfBandCollector rfl
    (by decide) (by decide)

/-- C1: in the discovery-mode scenario (`"all"`, local SUT, only `turbostat`
collectible, empty exclude set), `discover()` returns `["turbostat"]`, yet
`create_and_configure_stcoll` finishes with `sysinfo`, `turbostat` and
`ipmi-inband` all enabled: the `set_enabled_stats("all")` on source line 198
re-enables the undiscovered statistics, so the final enabled set is not the
discovered set minus the excluded set, contradicting the claim (and the
`apply_stconf` sequence in the same file). -/
theorem create_and_configure_reenables_undiscovered_stats :
    scenarioPreDiscover.map
        (fun s => s.discover (fun n => n == "turbostat") (fun _ => false)) = .ok ["turbostat"]
    ∧ (create_and_configure_stcoll "all" "" false "host"
          (fun n => n == "turbostat") (fun _ => false)).map
        (fun r => r.map STCAgent.get_enabled_stats)
        = .ok (some ["sysinfo", "turbostat", "ipmi-inband"])
    ∧ (["sysinfo", "turbostat", "ipmi-inband"] : List String).toFinset
        ≠ (pyDiff ["turbostat"] ([] : List String)).toFinset := by
  refine ⟨by decide, by decide, by decide⟩

/-- C2 counterexample: on a facade for a local SUT (no out-of-band
collector), `set_prop` on the out-of-band statistic `acpower` is not
silently skipped: it raises the `ErrorNotFound` "statistics ... is not
available" error, contradicting the claim for `set_prop`.  (The caller in
`STCHelpers.py` line 172 even wraps this very call in
`contextlib.suppress(Error)`.) -/
theorem set_prop_oob_name_raises_when_oob_absent :
    (mkSTCAgent false "h").set_prop "acpower" "devnode" "default"
      = .error (.notAvailable "acpower") := by
  decide

/-- C3 counterexample: `parse_intervals` accepts the non-positive interval
value `-5` and stores it, contradicting the claim that a non-positive value
raises the malformed-entry error (the code only checks `Trivial.is_float`). -/
theorem parse_intervals_accepts_nonpositive_interval :
    parse_intervals mkBuilder "acpower:-5"
        = .ok { mkBuilder with intervals := [("acpower", .finite (-5))] }
    ∧ ¬(0 : ℚ) < -5 := by
  refine ⟨by decide, by norm_num⟩

end Wult
